import Mathlib

/-!
Verification of the AircomPredRaster block assembly and post-processing core
(frmts/aircom/AircomPredRaster/RasterBand.cpp), via a shallow embedding.

Modelling conventions:
* C++ doubles are modelled by `DVal`: either an exact rational or NaN.
  All numeric constants in play (0, 200, -18000, 18000, -9999, ...) are exactly
  representable in IEEE doubles, so exact rational arithmetic is faithful on them.
* Typed pixel buffers hold `PixVal`: an integer (for the five integer encodings,
  range-checked by the cast) or a `DVal` (for the two floating encodings).
* A C++ conversion from double to an integer type truncates toward zero and is
  undefined behavior when the truncated value is not representable (including NaN);
  the model returns `none` in exactly those cases, and functions whose C++
  counterpart would hit undefined behavior return the outcome `ub`.
* C++ exceptions thrown by the source (missing sentinel, oversize tile,
  unsupported encoding in readTile) become the outcome `err e`.
-/

namespace PredRaster

/-- The GDAL pixel data type enumeration; the band dispatches on it.
Seven of these kinds are supported by the Typed Pixel Codec. -/
inductive GDALDataType where
  | GDT_Unknown
  | GDT_Byte
  | GDT_UInt16
  | GDT_Int16
  | GDT_UInt32
  | GDT_Int32
  | GDT_Float32
  | GDT_Float64
  | GDT_CInt16
  | GDT_CInt32
  | GDT_CFloat32
  | GDT_CFloat64
deriving DecidableEq

/-- The seven encodings handled by the switch statements in RasterBand.cpp. -/
def isSupported : GDALDataType → Bool
  | .GDT_Byte | .GDT_Int16 | .GDT_UInt16 | .GDT_Int32 | .GDT_UInt32
  | .GDT_Float32 | .GDT_Float64 => true
  | _ => false

/-- Model of a C++ double: an exact rational value or NaN. -/
inductive DVal where
  | nan
  | q (x : ℚ)
deriving DecidableEq

/-- IEEE `<` on doubles: any comparison involving NaN is false. -/
def DVal.ltb : DVal → DVal → Bool
  | .q a, .q b => a < b
  | _, _ => false

/-- IEEE `==` on doubles: NaN compares unequal to everything, itself included. -/
def DVal.eqb : DVal → DVal → Bool
  | .q a, .q b => a == b
  | _, _ => false

/-- A typed pixel value: an integer for the five integer encodings,
a double model for the two floating encodings. -/
inductive PixVal where
  | i (v : ℤ)
  | f (d : DVal)
deriving DecidableEq

/-- The `<` of the pixel type, as used by postProcessBlockRow. -/
def PixVal.ltb : PixVal → PixVal → Bool
  | .i a, .i b => a < b
  | .f a, .f b => DVal.ltb a b
  | _, _ => false

/-- The `==` of the pixel type, as used by postProcessBlockRow. -/
def PixVal.eqb : PixVal → PixVal → Bool
  | .i a, .i b => a == b
  | .f a, .f b => DVal.eqb a b
  | _, _ => false

/-- Floor of a rational, written so that it evaluates by kernel reduction. -/
def ratFloor (x : ℚ) : ℤ := x.num / (x.den : ℤ)

/-- Ceiling of a rational, written so that it evaluates by kernel reduction. -/
def ratCeil (x : ℚ) : ℤ := -ratFloor (-x)

/-- C++ float-to-integer conversion truncates toward zero. -/
def ratTrunc (x : ℚ) : ℤ :=
  if 0 ≤ x then ratFloor x else ratCeil x

/-- Representable range of each integer encoding; none for the floating and
unsupported kinds. -/
def intRange : GDALDataType → Option (ℤ × ℤ)
  | .GDT_Byte => some (0, 255)
  | .GDT_Int16 => some (-32768, 32767)
  | .GDT_UInt16 => some (0, 65535)
  | .GDT_Int32 => some (-2147483648, 2147483647)
  | .GDT_UInt32 => some (0, 4294967295)
  | _ => none

/-- `static_cast<T>(d)` for a double `d` and the pixel type `T` of the encoding.
For integer encodings the value is truncated toward zero; a NaN or a truncated
value outside the representable range is undefined behavior in C++, modelled as
`none`. For the floating encodings the value is kept exactly (every double
constant occurring in this driver is exactly representable as a float). -/
def castD (enc : GDALDataType) (d : DVal) : Option PixVal :=
  match enc with
  | .GDT_Float32 | .GDT_Float64 => some (.f d)
  | _ =>
    match intRange enc, d with
    | some (lo, hi), .q x =>
      if lo ≤ ratTrunc x ∧ ratTrunc x ≤ hi then some (.i (ratTrunc x)) else none
    | _, _ => none

/-- Cast of the optional no-data sentinel: the source casts it only when present. -/
def castOpt (enc : GDALDataType) : Option DVal → Option (Option PixVal)
  | none => some none
  | some d => (castD enc d).map some

/-- Exceptions thrown on the block-read path of RasterBand.cpp. -/
inductive RBError where
  | noSentinel
  | tileLargerThanBlock
  | unsupportedEncoding
deriving DecidableEq

/-- Result of a modelled operation: normal return, a thrown C++ exception, or
undefined behavior in the source. -/
inductive Outcome (X : Type) where
  | ok (x : X)
  | err (e : RBError)
  | ub
deriving DecidableEq

def Outcome.map (f : X → Y) : Outcome X → Outcome Y
  | .ok x => .ok (f x)
  | .err e => .err e
  | .ub => .ub

/-- RasterBand::RowSegment: a half-open column interval [start, stop).
(The second field is named `end` in the source, a reserved word here.) -/
structure RowSegment where
  start : ℤ
  stop : ℤ
deriving DecidableEq

/-- getValidValuesRange from RasterBand.cpp, together with the surrounding
initialization in postProcessBlock: minValue and maxValue start as quiet NaN and
are overwritten only for sections 0 and 1; the returned flag says whether a
range is configured.  postProcessBlock ignores the flag. -/
def getValidValuesRange (sectionNum : ℕ) : Bool × DVal × DVal :=
  match sectionNum with
  | 0 => (true, .q 0, .q 200)
  | 1 => (true, .q (-18000), .q 18000)
  | _ => (false, .nan, .nan)

/-- DIV_ROUND_UP, used for nBlocksPerRow / nBlocksPerColumn.
Modelled from the spec: the macro itself lives in the GDAL core headers outside
this repository; the spec states blocks-per-row/column are obtained by ceiling
division of the raster size by the block size. -/
def divRoundUp (a b : ℕ) : ℕ := (a + b - 1) / b

/-- The clamp of the middle loop of postProcessBlockRow: a value below the
typed minimum is raised to it, else a value above the typed maximum is lowered
to it. -/
def clampPix (tm tM v : PixVal) : PixVal :=
  if PixVal.ltb v tm then tm
  else if PixVal.ltb tM v then tM
  else v

/-- The body of the middle loop of postProcessBlockRow: an existing sentinel
value is skipped, any other value is clamped. -/
def middlePix (nd : Option PixVal) (tm tM v : PixVal) : PixVal :=
  if (match nd with | some n => PixVal.eqb v n | none => false) then v
  else clampPix tm tM v

/-- The per-pixel action of postProcessBlockRow at column x, for the typed
sentinel nd (absent when noDataValue is absent), typed range bounds tm / tM and
the block-local row segment seg on a row of widthInPixels columns.  The three
loops of the source write disjoint column regions, so their combined effect on
column x is: columns left of seg.start are overwritten with the sentinel when
one is configured; columns in [seg.start, seg.stop) keep existing sentinel
values and are otherwise clamped; columns in [seg.stop, widthInPixels) are
again overwritten with the sentinel when one is configured. -/
def processPixel (nd : Option PixVal) (tm tM : PixVal) (seg : RowSegment)
    (widthInPixels : ℤ) (x : ℕ) (v : PixVal) : PixVal :=
  if (x : ℤ) < seg.start then nd.getD v
  else if (x : ℤ) < seg.stop then middlePix nd tm tM v
  else if (x : ℤ) < widthInPixels then nd.getD v
  else v

/-- The pure data transformation of postProcessBlockRow, applied to a row whose
columns are listed left to right; the column index is tracked explicitly. -/
def processRowFrom (nd : Option PixVal) (tm tM : PixVal) (seg : RowSegment)
    (widthInPixels : ℤ) : ℕ → List PixVal → List PixVal
  | _, [] => []
  | x, v :: rest =>
    processPixel nd tm tM seg widthInPixels x v ::
      processRowFrom nd tm tM seg widthInPixels (x + 1) rest

/-- postProcessBlockRow from RasterBand.cpp: casts minValue, maxValue and the
optional noDataValue to the pixel type of the encoding (undefined behavior when
a cast is not representable), then rewrites the row. -/
def postProcessBlockRow (enc : GDALDataType) (noDataValue : Option DVal)
    (minValue maxValue : DVal) (seg : RowSegment) (widthInPixels : ℤ)
    (row : List PixVal) : Outcome (List PixVal) :=
  match castD enc minValue with
  | none => .ub
  | some tm =>
    match castD enc maxValue with
    | none => .ub
    | some tM =>
      match castOpt enc noDataValue with
      | none => .ub
      | some nd => .ok (processRowFrom nd tm tM seg widthInPixels 0 row)

/-- The computeBlockRowSegment lambda of postProcessBlock: translate a cached
raster-row segment into block-local coordinates and clip it to [0, blockW]. -/
def computeBlockRowSegment (blockW startColumnIndex : ℤ) (seg : RowSegment) :
    RowSegment :=
  { start := max 0 (min blockW (seg.start - startColumnIndex)),
    stop := max 0 (min blockW (seg.stop - startColumnIndex)) }

/-- One iteration of the per-row loop of postProcessBlock for block row y:
look up the cached raster-row segment at index startRowIndex + y (reading past
the end of the cache vector is undefined behavior), clip it to the block, and
run postProcessBlockRow on the row. -/
def postProcessOneRow (enc : GDALDataType) (noDataValue : Option DVal)
    (minValue maxValue : DVal) (cache : List RowSegment)
    (startRowIndex : ℕ) (startColumnIndex blockW : ℤ) (y : ℕ)
    (row : List PixVal) : Outcome (List PixVal) :=
  match cache.get? (startRowIndex + y) with
  | none => .ub
  | some rawSeg =>
    postProcessBlockRow enc noDataValue minValue maxValue
      (computeBlockRowSegment blockW startColumnIndex rawSeg) blockW row

/-- The row loop of postProcessBlock, processing the rows of the block in order
while threading the block-row index. -/
def postProcessRowsFrom (enc : GDALDataType) (noDataValue : Option DVal)
    (minValue maxValue : DVal) (cache : List RowSegment)
    (startRowIndex : ℕ) (startColumnIndex blockW : ℤ) :
    ℕ → List (List PixVal) → Outcome (List (List PixVal))
  | _, [] => .ok []
  | y, row :: rest =>
    match postProcessOneRow enc noDataValue minValue maxValue cache
        startRowIndex startColumnIndex blockW y row with
    | .ok row2 =>
      match postProcessRowsFrom enc noDataValue minValue maxValue cache
          startRowIndex startColumnIndex blockW (y + 1) rest with
      | .ok rest2 => .ok (row2 :: rest2)
      | .err e => .err e
      | .ub => .ub
    | .err e => .err e
    | .ub => .ub

/-- RasterBand::postProcessBlock: the valid value range of the section is looked
up (staying NaN when none is configured, the returned flag being ignored), and
each block row is post-processed against the cached row segments.  The switch
on the data type has no default case, so a block of an unsupported encoding is
returned untouched.  The block buffer is given as its list of rows; blockXOff
and blockYOff are the block coordinates. -/
def postProcessBlock (enc : GDALDataType) (sectionNum : ℕ)
    (noDataValue : Option DVal) (cache : List RowSegment) (blockW blockH : ℕ)
    (blockXOff blockYOff : ℕ) (block : List (List PixVal)) :
    Outcome (List (List PixVal)) :=
  if isSupported enc then
    postProcessRowsFrom enc noDataValue
      (getValidValuesRange sectionNum).2.1 (getValidValuesRange sectionNum).2.2
      cache (blockYOff * blockH) (blockXOff * blockW : ℕ) blockW 0 block
  else .ok block

/-- _REGIONEX of the tile interface: the dimensions of a tile. -/
structure TileRegion where
  m_width : ℤ
  m_height : ℤ
deriving DecidableEq

/-- A tile handed out by the Tile Provider: its reported pixel count, its
region, and the pixel stream that its typed getters produce. -/
structure Tile where
  pixelCount : ℕ
  region : TileRegion
  data : List PixVal
deriving DecidableEq

/-- RasterBand::readTile: exactly one of seven typed extraction calls fills the
buffer with numPixels decoded values; any other encoding throws. -/
def readTile (enc : GDALDataType) (tileData : List PixVal) (numPixels : ℕ) :
    Outcome (List PixVal) :=
  if isSupported enc then .ok (tileData.take numPixels)
  else .err .unsupportedEncoding

/-- RasterBand::fillNoDataBlock: throws when no sentinel is configured,
otherwise fills the whole block with the sentinel cast to the pixel type.
The switch has no default case: for an encoding outside the seven supported
kinds nothing is written and the function returns normally, leaving the block
buffer exactly as it was. -/
def fillNoDataBlock (enc : GDALDataType) (noDataValue : Option DVal)
    (numPixels : ℕ) (blockData : List PixVal) : Outcome (List PixVal) :=
  match noDataValue with
  | none => .err .noSentinel
  | some nd =>
    if isSupported enc then
      match castD enc nd with
      | some v => .ok (List.replicate numPixels v)
      | none => .ub
    else .ok blockData

/-- The row copy of fillPartialBlock on pixel-indexed buffers: pixel p of the
block lies at row p / blockW, column p % blockW; rows below tileH get their
first tileW pixels from the decoded tile, all other pixels are left as they
were (byte offsets of the source reduce to these pixel indices). -/
def overlayTile (blockW tileW tileH : ℕ) (tileData blockData : List PixVal) :
    List PixVal :=
  blockData.mapIdx fun p v =>
    if p / blockW < tileH ∧ p % blockW < tileW then
      (tileData.get? ((p / blockW) * tileW + p % blockW)).getD v
    else v

/-- RasterBand::fillPartialBlock: rejects a tile larger than the block on
either axis, then decodes the tile compactly and copies it row by row into the
top-left corner of the block. -/
def fillPartialBlock (enc : GDALDataType) (blockW blockH : ℕ) (tile : Tile)
    (blockData : List PixVal) : Outcome (List PixVal) :=
  if tile.region.m_width > (blockW : ℤ) ∨ tile.region.m_height > (blockH : ℤ) then
    .err .tileLargerThanBlock
  else
    (readTile enc tile.data (tile.region.m_width * tile.region.m_height).toNat).map
      (fun tileData =>
        overlayTile blockW tile.region.m_width.toNat tile.region.m_height.toNat
          tileData blockData)

/-- RasterBand::readBlock: an absent tile leads to a sentinel fill and a false
flag; a tile whose pixel count equals the block pixel count is decoded straight
into the block; otherwise the tile is placed as a partial block.  The returned
flag says whether a tile was present. -/
def readBlock (enc : GDALDataType) (noDataValue : Option DVal)
    (blockW blockH : ℕ) (tileOpt : Option Tile) (blockData : List PixVal) :
    Outcome (List PixVal × Bool) :=
  match tileOpt with
  | none =>
    (fillNoDataBlock enc noDataValue (blockW * blockH) blockData).map (·, false)
  | some tile =>
    if tile.pixelCount = blockW * blockH then
      (readTile enc tile.data (blockW * blockH)).map (·, true)
    else
      (fillPartialBlock enc blockW blockH tile blockData).map (·, true)

/-- Vertical distance of the pixel-center of raster row rowIndex from the
transmitter, as computed in computeRowSegmentsInsidePredictionRadius. -/
def rowYDistance (topmostPixelCenter res txY : ℚ) (rowIndex : ℕ) : ℚ :=
  |topmostPixelCenter - rowIndex * res - txY|

/-- The per-row body of computeRowSegmentsInsidePredictionRadius.  The source
computes xDistance = sqrt(radius^2 - yDistance^2); the model takes xDistance as
an argument, theorems about the near branch constrain it by 0 ≤ xDistance and
xDistance^2 = radius^2 - yDistance^2. -/
def computeRowSegment (res radius txX leftmostPixelCenter : ℚ)
    (yDistance xDistance : ℚ) : RowSegment :=
  if yDistance > radius then { start := 0, stop := 0 }
  else
    { start := ratCeil ((txX - xDistance - leftmostPixelCenter) / res),
      stop := ratFloor ((txX + xDistance - leftmostPixelCenter) / res) + 1 }

/-- Ordering of double models used to state that a configured value range is
ordered: two NaNs are related, two rationals are related by ≤. -/
def DVal.le : DVal → DVal → Prop
  | .nan, .nan => True
  | .q a, .q b => a ≤ b
  | _, _ => False

theorem ratFloor_eq (x : ℚ) : ratFloor x = ⌊x⌋ := Rat.floor_def.symm

theorem ratCeil_eq (x : ℚ) : ratCeil x = ⌈x⌉ := by
  rw [ratCeil, ratFloor_eq, Int.floor_neg, neg_neg]

/-- Claim C9: in the concrete scenario with section 0 (valid range [0, 200]),
16-bit signed encoding, no-data sentinel -9999, a 2 by 2 block whose decoded
values are 300, -50 / 1000, 5 and row coverage segment [0, 2) for both rows,
the Post-Processor produces exactly 200, 0 / 200, 5: every value is clamped
into [0, 200] and no pixel is overwritten with the sentinel. -/
theorem concrete_scenario_clamp :
    postProcessBlock .GDT_Int16 0 (some (.q (-9999)))
      [⟨0, 2⟩, ⟨0, 2⟩] 2 2 0 0 [[.i 300, .i (-50)], [.i 1000, .i 5]]
    = .ok [[.i 200, .i 0], [.i 200, .i 5]] := by decide

/-- Claim C1 (code bug): for a band whose section is neither 0 nor 1, no valid
range is configured and minValue / maxValue stay quiet NaN.  For an
integer-encoded band (here GDT_Byte, section 2) the source then evaluates
static_cast of NaN to the integer pixel type, which is undefined behavior in
C++, so the Post-Processor does not leave covered pixel values unchanged; it
has no defined result at all.  (For the two floating encodings the NaN
comparisons are false and the no-op does hold.) -/
theorem noRange_integer_cast_undefined :
    getValidValuesRange 2 = (false, .nan, .nan)
    ∧ castD .GDT_Byte .nan = none
    ∧ postProcessBlock .GDT_Byte 2 (some (.q 200))
        [⟨0, 1⟩] 1 1 0 0 [[.i 5]] = .ub := by decide

/-- Claim C4 (code bug): the switch of fillNoDataBlock has no default case, so
for an encoding outside the seven supported kinds (here GDT_CInt16) the
sentinel-fill path taken on tile absence writes nothing and returns normally:
readBlock reports success with the block buffer left exactly as it was,
instead of surfacing a failure.  The decode path of readTile, by contrast,
does fail on the same encoding. -/
theorem unsupported_encoding_silent_fill :
    readBlock .GDT_CInt16 (some (.q 200)) 2 2 none [.i 7, .i 7, .i 7, .i 7]
      = .ok ([.i 7, .i 7, .i 7, .i 7], false)
    ∧ readBlock .GDT_CInt16 (some (.q 200)) 1 1 (some ⟨1, ⟨1, 1⟩, [.i 9]⟩) [.i 0]
      = .err .unsupportedEncoding := by decide

/-- Claim C5, counterexample: a tile whose width (8) exceeds the block width
(4) but whose reported pixel count (8) equals the block pixel count takes the
full-tile branch of readBlock, which performs no dimension check: the tile is
copied into the block buffer and the read succeeds instead of failing with the
tile-larger-than-block error. -/
theorem oversizeTile_fullCount_copied :
    readBlock .GDT_Byte (some (.q 200)) 4 2
      (some ⟨8, ⟨8, 1⟩, [.i 1, .i 2, .i 3, .i 4, .i 5, .i 6, .i 7, .i 8]⟩)
      [.i 0, .i 0, .i 0, .i 0, .i 0, .i 0, .i 0, .i 0]
    = .ok ([.i 1, .i 2, .i 3, .i 4, .i 5, .i 6, .i 7, .i 8], true)
    ∧ (8 : ℤ) > 4 := by decide

/-- Claim C5 as amended: for a tile whose pixel count differs from the block
pixel count, a width or height exceeding the block dimension makes the read
fail with the tile-larger-than-block error, before any pixel is copied. -/
theorem oversizeTile_mismatch_fails (enc : GDALDataType) (noDataValue : Option DVal)
    (blockW blockH : ℕ) (tile : Tile) (blockData : List PixVal)
    (hcount : tile.pixelCount ≠ blockW * blockH)
    (hdim : tile.region.m_width > (blockW : ℤ) ∨ tile.region.m_height > (blockH : ℤ)) :
    readBlock enc noDataValue blockW blockH (some tile) blockData
      = .err .tileLargerThanBlock := by
  simp [readBlock, fillPartialBlock, hcount, hdim, Outcome.map]

theorem oversizeTile_mismatch_fails_witness :
    (⟨5, ⟨5, 1⟩, [.i 1, .i 2, .i 3, .i 4, .i 5]⟩ : Tile).pixelCount ≠ 4 * 2
    ∧ ((⟨5, ⟨5, 1⟩, [.i 1, .i 2, .i 3, .i 4, .i 5]⟩ : Tile).region.m_width > (4 : ℤ)
        ∨ (⟨5, ⟨5, 1⟩, [.i 1, .i 2, .i 3, .i 4, .i 5]⟩ : Tile).region.m_height > (2 : ℤ))
    ∧ readBlock .GDT_Byte (some (.q 200)) 4 2
        (some ⟨5, ⟨5, 1⟩, [.i 1, .i 2, .i 3, .i 4, .i 5]⟩)
        [.i 0, .i 0, .i 0, .i 0, .i 0, .i 0, .i 0, .i 0]
      = .err .tileLargerThanBlock :=
  ⟨by decide, by decide,
    oversizeTile_mismatch_fails .GDT_Byte (some (.q 200)) 4 2 _ _
      (by decide) (by decide)⟩

/-- Claim C6 (code bug): with raster height 3 and block height 2 the raster has
two block rows (ceiling division), but the row-segment cache holds one entry
per raster row, so post-processing the bottom block row reads cache index
1 * 2 + 1 = 3, one past the end of the cache: an out-of-bounds vector read,
undefined behavior, instead of staying within the cache. -/
theorem bottomBlock_cache_overrun :
    divRoundUp 3 2 = 2
    ∧ 1 < divRoundUp 3 2
    ∧ postProcessBlock .GDT_Byte 0 (some (.q 200))
        [⟨0, 1⟩, ⟨0, 1⟩, ⟨0, 1⟩] 1 2 0 1 [[.i 5], [.i 5]] = .ub := by decide

/-- Claim C3: for an absent tile, when a sentinel is configured (and its cast
to the pixel type of the band encoding is defined) readBlock fills every pixel
of the block with the cast sentinel and reports tile-absent; when no sentinel
is configured the read fails with the missing-sentinel error. -/
theorem absentTile_sentinel_fill (enc : GDALDataType) (nd : DVal) (v : PixVal)
    (blockW blockH : ℕ) (blockData : List PixVal)
    (hsup : isSupported enc = true) (hcast : castD enc nd = some v) :
    readBlock enc (some nd) blockW blockH none blockData
      = .ok (List.replicate (blockW * blockH) v, false)
    ∧ (∀ p ∈ List.replicate (blockW * blockH) v, p = v)
    ∧ readBlock enc none blockW blockH none blockData = .err .noSentinel := by
  refine ⟨?_, fun p hp => List.eq_of_mem_replicate hp, ?_⟩
  · simp [readBlock, fillNoDataBlock, hsup, hcast, Outcome.map]
  · simp [readBlock, fillNoDataBlock, Outcome.map]

theorem absentTile_sentinel_fill_witness :
    isSupported .GDT_Byte = true
    ∧ castD .GDT_Byte (.q 200) = some (.i 200)
    ∧ readBlock .GDT_Byte (some (.q 200)) 2 2 none [.i 7, .i 7, .i 7, .i 7]
        = .ok (List.replicate (2 * 2) (.i 200), false) :=
  ⟨by decide, by decide,
    (absentTile_sentinel_fill .GDT_Byte (.q 200) (.i 200) 2 2
      [.i 7, .i 7, .i 7, .i 7] (by decide) (by decide)).1⟩

/-- Claim C2, counterexample: a row at vertical distance 1 from the transmitter
with radius 1 (so the distance does not exceed the radius, and the exact
half-chord is 0) still gets an empty segment when the transmitter x (1/2) lies
between pixel centers: the computed segment is [1, 1), empty, refuting that
emptiness holds only when the distance exceeds the radius. -/
theorem emptySegment_within_radius :
    rowYDistance 0 1 1 0 = 1
    ∧ ¬ ((1 : ℚ) > 1)
    ∧ (0 : ℚ) ^ 2 = 1 ^ 2 - 1 ^ 2
    ∧ (0 : ℚ) ≤ 0
    ∧ computeRowSegment 1 1 (1/2) 0 1 0 = ⟨1, 1⟩ := by
  refine ⟨by norm_num [rowYDistance], by norm_num, by norm_num, le_refl 0, ?_⟩
  rw [computeRowSegment, if_neg (by norm_num)]
  have h1 : ((1 : ℚ)/2 - 0 - 0) / 1 = 1/2 := by norm_num
  have h2 : ((1 : ℚ)/2 + 0 - 0) / 1 = 1/2 := by norm_num
  rw [h1, h2, ratCeil_eq, ratFloor_eq]
  have hc : ⌈(1/2 : ℚ)⌉ = 1 := by rw [Int.ceil_eq_iff] <;> norm_num
  have hf : ⌊(1/2 : ℚ)⌋ = 0 := by rw [Int.floor_eq_iff] <;> norm_num
  rw [hc, hf]
  rfl

/-- Claim C2 as amended: when the vertical distance of the row from the
transmitter exceeds the radius, the cached segment is exactly [0, 0); the
converse fails, since a covered row whose chord contains no pixel center also
yields an empty segment. -/
theorem segment_empty_beyond_radius (res radius txX leftmost yDistance xDistance : ℚ)
    (h : yDistance > radius) :
    computeRowSegment res radius txX leftmost yDistance xDistance = ⟨0, 0⟩ := by
  rw [computeRowSegment, if_pos h]

theorem segment_empty_beyond_radius_witness :
    ((2 : ℚ) > 1) ∧ computeRowSegment 1 1 0 0 2 0 = ⟨0, 0⟩ :=
  ⟨by norm_num, segment_empty_beyond_radius 1 1 0 0 2 0 (by norm_num)⟩

/-- Claim C7: for a row whose vertical distance does not exceed the radius, the
computed segment start is the ceiling of (txX - dx - leftmostPixelCenter) / res
and the exclusive end is the floor of (txX + dx - leftmostPixelCenter) / res
plus one, where dx is the exact nonnegative half-chord sqrt(radius^2 - dy^2);
equivalently, start is the smallest column index whose pixel center
leftmost + c * res lies at or right of txX - dx, and the end is one past the
largest column whose center lies at or left of txX + dx. -/
theorem rowSegment_formula (res radius txX leftmost yD dx : ℚ)
    (hres : 0 < res) (hy : ¬ yD > radius)
    (hdx0 : 0 ≤ dx) (hdx : dx ^ 2 = radius ^ 2 - yD ^ 2) :
    (computeRowSegment res radius txX leftmost yD dx).start
        = ⌈(txX - dx - leftmost) / res⌉
    ∧ (computeRowSegment res radius txX leftmost yD dx).stop
        = ⌊(txX + dx - leftmost) / res⌋ + 1
    ∧ ∀ c : ℤ,
        ((computeRowSegment res radius txX leftmost yD dx).start ≤ c
          ↔ txX - dx ≤ leftmost + c * res)
        ∧ (c < (computeRowSegment res radius txX leftmost yD dx).stop
          ↔ leftmost + c * res ≤ txX + dx) := by
  rw [computeRowSegment, if_neg hy]
  refine ⟨by rw [ratCeil_eq], by rw [ratFloor_eq], fun c => ⟨?_, ?_⟩⟩
  · rw [ratCeil_eq, Int.ceil_le, div_le_iff₀ hres]
    constructor <;> intro h <;> nlinarith [h]
  · rw [ratFloor_eq, Int.lt_add_one_iff, Int.le_floor, le_div_iff₀ hres]
    constructor <;> intro h <;> nlinarith [h]

theorem rowSegment_formula_witness :
    (0 : ℚ) < 1 ∧ ¬ (4 : ℚ) > 5 ∧ (0 : ℚ) ≤ 3 ∧ (3 : ℚ) ^ 2 = 5 ^ 2 - 4 ^ 2
    ∧ ((computeRowSegment 1 5 10 0 4 3).start ≤ 7 ↔ (10 : ℚ) - 3 ≤ 0 + 7 * 1)
    ∧ (6 < (computeRowSegment 1 5 10 0 4 3).stop ↔ (0 : ℚ) + 6 * 1 ≤ 10 + 3) :=
  ⟨by norm_num, by norm_num, by norm_num, by norm_num,
    ((rowSegment_formula 1 5 10 0 4 3 (by norm_num) (by norm_num)
      (by norm_num) (by norm_num)).2.2 7).1,
    ((rowSegment_formula 1 5 10 0 4 3 (by norm_num) (by norm_num)
      (by norm_num) (by norm_num)).2.2 6).2⟩

/-- Claim C10: clipping a cached raster-row segment with start at most end to a
block of width blockW yields block-local bounds with
0 ≤ start ≤ end ≤ blockW, and the three per-row loop ranges [0, start),
[start, end) and [end, blockW) are pairwise disjoint and together cover
exactly the column indices of [0, blockW). -/
theorem blockRowSegment_partition (blockW startCol : ℤ) (seg : RowSegment)
    (hW : 0 ≤ blockW) (hse : seg.start ≤ seg.stop) :
    0 ≤ (computeBlockRowSegment blockW startCol seg).start
    ∧ (computeBlockRowSegment blockW startCol seg).start
        ≤ (computeBlockRowSegment blockW startCol seg).stop
    ∧ (computeBlockRowSegment blockW startCol seg).stop ≤ blockW
    ∧ ∀ x : ℤ,
        (((0 ≤ x ∧ x < (computeBlockRowSegment blockW startCol seg).start)
          ∨ ((computeBlockRowSegment blockW startCol seg).start ≤ x
              ∧ x < (computeBlockRowSegment blockW startCol seg).stop)
          ∨ ((computeBlockRowSegment blockW startCol seg).stop ≤ x ∧ x < blockW))
          ↔ (0 ≤ x ∧ x < blockW))
        ∧ ¬ ((0 ≤ x ∧ x < (computeBlockRowSegment blockW startCol seg).start)
            ∧ ((computeBlockRowSegment blockW startCol seg).start ≤ x
                ∧ x < (computeBlockRowSegment blockW startCol seg).stop))
        ∧ ¬ (((computeBlockRowSegment blockW startCol seg).start ≤ x
                ∧ x < (computeBlockRowSegment blockW startCol seg).stop)
            ∧ ((computeBlockRowSegment blockW startCol seg).stop ≤ x ∧ x < blockW))
        ∧ ¬ ((0 ≤ x ∧ x < (computeBlockRowSegment blockW startCol seg).start)
            ∧ ((computeBlockRowSegment blockW startCol seg).stop ≤ x ∧ x < blockW)) := by
  simp only [computeBlockRowSegment]
  refine ⟨?_, ?_, ?_, fun x => ⟨?_, ?_, ?_, ?_⟩⟩ <;> omega

theorem blockRowSegment_partition_witness :
    (0 : ℤ) ≤ 4 ∧ (⟨1, 3⟩ : RowSegment).start ≤ (⟨1, 3⟩ : RowSegment).stop
    ∧ 0 ≤ (computeBlockRowSegment 4 0 ⟨1, 3⟩).start
    ∧ (computeBlockRowSegment 4 0 ⟨1, 3⟩).stop ≤ 4 :=
  ⟨by decide, by decide,
    (blockRowSegment_partition 4 0 ⟨1, 3⟩ (by decide) (by decide)).1,
    (blockRowSegment_partition 4 0 ⟨1, 3⟩ (by decide) (by decide)).2.2.1⟩

theorem PixVal.ltb_irrefl (v : PixVal) : PixVal.ltb v v = false := by
  cases v with
  | i a => simp [PixVal.ltb]
  | f d => cases d <;> simp [PixVal.ltb, DVal.ltb]

theorem ratTrunc_mono {a b : ℚ} (h : a ≤ b) : ratTrunc a ≤ ratTrunc b := by
  unfold ratTrunc
  split_ifs with h1 h2 h2
  · rw [ratFloor_eq, ratFloor_eq]; exact Int.floor_mono h
  · exact absurd (le_trans h1 h) h2
  · rw [ratCeil_eq, ratFloor_eq]
    calc ⌈a⌉ ≤ 0 := Int.ceil_le.mpr (by push_cast; linarith [not_le.mp h1])
    _ ≤ ⌊b⌋ := Int.le_floor.mpr (by push_cast; linarith)
  · rw [ratCeil_eq, ratCeil_eq]; exact Int.ceil_mono h

theorem castD_int_eq {lo hi : ℤ} {x : ℚ} {A : PixVal}
    (h : (if lo ≤ ratTrunc x ∧ ratTrunc x ≤ hi then some (PixVal.i (ratTrunc x))
          else none) = some A) :
    A = .i (ratTrunc x) := by
  split at h
  · injection h with h2; exact h2.symm
  · exact absurd h (by simp)

/-- If both bounds of an ordered pair of doubles have defined casts to the
pixel type of an encoding, the cast values are ordered as well: the cast upper
bound is never strictly below the cast lower bound. -/
theorem castD_le_not_lt (enc : GDALDataType) {a b : DVal} {A B : PixVal}
    (hab : DVal.le a b) (ha : castD enc a = some A) (hb : castD enc b = some B) :
    PixVal.ltb B A = false := by
  cases a <;> cases b <;> simp only [DVal.le] at hab
  case nan.nan =>
    cases enc <;> simp only [castD, intRange] at ha hb
    all_goals
      first
        | exact Option.noConfusion ha
        | (injection ha with ha2
           injection hb with hb2
           subst ha2
           subst hb2
           rfl)
  case q.q x y =>
    have hxy := ratTrunc_mono hab
    cases enc <;> simp only [castD, intRange] at ha hb
    all_goals
      first
        | exact Option.noConfusion ha
        | (obtain rfl := castD_int_eq ha
           obtain rfl := castD_int_eq hb
           simpa [PixVal.ltb] using not_lt.mpr hxy)
        | (injection ha with ha2
           injection hb with hb2
           subst ha2
           subst hb2
           simpa [PixVal.ltb, DVal.ltb] using not_lt.mpr hab)

/-- The fixed valid-range table always yields an ordered (or doubly-NaN) pair
of bounds. -/
theorem validRange_le (sectionNum : ℕ) :
    DVal.le (getValidValuesRange sectionNum).2.1 (getValidValuesRange sectionNum).2.2 := by
  match sectionNum with
  | 0 => norm_num [getValidValuesRange, DVal.le]
  | 1 => norm_num [getValidValuesRange, DVal.le]
  | (n + 2) => simp [getValidValuesRange, DVal.le]

theorem clampPix_fix {tm tM : PixVal} (hMm : PixVal.ltb tM tm = false) (v : PixVal) :
    clampPix tm tM (clampPix tm tM v) = clampPix tm tM v := by
  unfold clampPix
  by_cases h1 : PixVal.ltb v tm
  · simp [h1, PixVal.ltb_irrefl, hMm]
  · by_cases h2 : PixVal.ltb tM v
    · simp [h1, h2, PixVal.ltb_irrefl, hMm]
    · simp [h1, h2]

theorem middlePix_fix (nd : Option PixVal) {tm tM : PixVal}
    (hMm : PixVal.ltb tM tm = false) (v : PixVal) :
    middlePix nd tm tM (middlePix nd tm tM v) = middlePix nd tm tM v := by
  cases nd with
  | none => simp [middlePix, clampPix_fix hMm]
  | some n =>
    by_cases hvn : PixVal.eqb v n = true
    · simp [middlePix, hvn]
    · simp only [middlePix, hvn, if_false, Bool.false_eq_true]
      by_cases hcn : PixVal.eqb (clampPix tm tM v) n = true
      · simp [hcn]
      · simp [hcn, clampPix_fix hMm]

theorem processPixel_idem (nd : Option PixVal) {tm tM : PixVal} (seg : RowSegment)
    (w : ℤ) (hMm : PixVal.ltb tM tm = false) (x : ℕ) (v : PixVal) :
    processPixel nd tm tM seg w x (processPixel nd tm tM seg w x v)
      = processPixel nd tm tM seg w x v := by
  unfold processPixel
  by_cases h1 : (x : ℤ) < seg.start
  · simp only [if_pos h1]; cases nd <;> rfl
  · simp only [if_neg h1]
    by_cases h2 : (x : ℤ) < seg.stop
    · simp only [if_pos h2]; exact middlePix_fix nd hMm v
    · simp only [if_neg h2]
      by_cases h3 : (x : ℤ) < w
      · simp only [if_pos h3]; cases nd <;> rfl
      · simp only [if_neg h3]

theorem processRowFrom_idem (nd : Option PixVal) {tm tM : PixVal} (seg : RowSegment)
    (w : ℤ) (hMm : PixVal.ltb tM tm = false) (x : ℕ) (row : List PixVal) :
    processRowFrom nd tm tM seg w x (processRowFrom nd tm tM seg w x row)
      = processRowFrom nd tm tM seg w x row := by
  induction row generalizing x with
  | nil => rfl
  | cons v rest ih =>
    simp only [processRowFrom]
    rw [processPixel_idem nd seg w hMm x v, ih (x + 1)]

theorem postProcessBlockRow_idem (enc : GDALDataType) (ndv : Option DVal)
    {minV maxV : DVal} (seg : RowSegment) (w : ℤ) {row row2 : List PixVal}
    (hle : DVal.le minV maxV)
    (h : postProcessBlockRow enc ndv minV maxV seg w row = .ok row2) :
    postProcessBlockRow enc ndv minV maxV seg w row2 = .ok row2 := by
  unfold postProcessBlockRow at h ⊢
  cases hm : castD enc minV with
  | none =>
    rw [hm] at h
    exact absurd (show Outcome.ub = Outcome.ok row2 from h) (by simp)
  | some tm =>
    rw [hm] at h
    cases hM : castD enc maxV with
    | none =>
      rw [hM] at h
      exact absurd (show Outcome.ub = Outcome.ok row2 from h) (by simp)
    | some tM =>
      rw [hM] at h
      cases hnd : castOpt enc ndv with
      | none =>
        rw [hnd] at h
        exact absurd (show Outcome.ub = Outcome.ok row2 from h) (by simp)
      | some nd =>
        rw [hnd] at h
        have h2 : Outcome.ok (processRowFrom nd tm tM seg w 0 row) = Outcome.ok row2 := h
        injection h2 with h3
        subst h3
        show Outcome.ok
            (processRowFrom nd tm tM seg w 0 (processRowFrom nd tm tM seg w 0 row))
          = Outcome.ok (processRowFrom nd tm tM seg w 0 row)
        rw [processRowFrom_idem nd seg w (castD_le_not_lt enc hle hm hM) 0 row]

theorem postProcessOneRow_idem (enc : GDALDataType) (ndv : Option DVal)
    {minV maxV : DVal} (cache : List RowSegment) (startRowIndex : ℕ)
    (startCol blockW : ℤ) (y : ℕ) {row row2 : List PixVal}
    (hle : DVal.le minV maxV)
    (h : postProcessOneRow enc ndv minV maxV cache startRowIndex startCol blockW y row
          = .ok row2) :
    postProcessOneRow enc ndv minV maxV cache startRowIndex startCol blockW y row2
      = .ok row2 := by
  unfold postProcessOneRow at h ⊢
  cases hc : cache.get? (startRowIndex + y) with
  | none =>
    rw [hc] at h
    exact absurd (show Outcome.ub = Outcome.ok row2 from h) (by simp)
  | some rawSeg =>
    rw [hc] at h
    exact postProcessBlockRow_idem enc ndv
      (computeBlockRowSegment blockW startCol rawSeg) blockW hle h

theorem postProcessRowsFrom_idem (enc : GDALDataType) (ndv : Option DVal)
    {minV maxV : DVal} (cache : List RowSegment) (startRowIndex : ℕ)
    (startCol blockW : ℤ) (hle : DVal.le minV maxV) :
    ∀ (y : ℕ) (rows rows2 : List (List PixVal)),
      postProcessRowsFrom enc ndv minV maxV cache startRowIndex startCol blockW y rows
        = .ok rows2 →
      postProcessRowsFrom enc ndv minV maxV cache startRowIndex startCol blockW y rows2
        = .ok rows2 := by
  intro y rows
  induction rows generalizing y with
  | nil =>
    intro rows2 h
    have h2 : Outcome.ok ([] : List (List PixVal)) = Outcome.ok rows2 := h
    injection h2 with h3
    subst h3
    rfl
  | cons row rest ih =>
    intro rows2 h
    unfold postProcessRowsFrom at h
    cases h1 : postProcessOneRow enc ndv minV maxV cache startRowIndex startCol blockW y row with
    | ok rowP =>
      rw [h1] at h
      cases h2 : postProcessRowsFrom enc ndv minV maxV cache startRowIndex startCol blockW
          (y + 1) rest with
      | ok restP =>
        rw [h2] at h
        have h3 : Outcome.ok (rowP :: restP) = Outcome.ok rows2 := h
        injection h3 with h4
        subst h4
        have hA := postProcessOneRow_idem enc ndv cache startRowIndex startCol blockW y hle h1
        have hB := ih (y + 1) restP h2
        unfold postProcessRowsFrom
        rw [hA, hB]
      | err e =>
        rw [h2] at h
        exact absurd (show Outcome.err e = Outcome.ok rows2 from h) (by simp)
      | ub =>
        rw [h2] at h
        exact absurd (show Outcome.ub = Outcome.ok rows2 from h) (by simp)
    | err e =>
      rw [h1] at h
      exact absurd (show Outcome.err e = Outcome.ok rows2 from h) (by simp)
    | ub =>
      rw [h1] at h
      exact absurd (show Outcome.ub = Outcome.ok rows2 from h) (by simp)

/-- Claim C8: post-processing is idempotent on every buffer it produces: for
every encoding, section, optional sentinel, segment cache and block, if the
Post-Processor returns a block buffer, applying it again to that buffer
returns the very same buffer.  (Pixels already rewritten are sentinel values
or values inside the cast valid range, both of which are preserved, the cast
bounds of the fixed range table being ordered whenever their casts are
defined.) -/
theorem postProcess_idempotent (enc : GDALDataType) (sectionNum : ℕ)
    (noDataValue : Option DVal) (cache : List RowSegment) (blockW blockH : ℕ)
    (blockXOff blockYOff : ℕ) (block block2 : List (List PixVal))
    (h : postProcessBlock enc sectionNum noDataValue cache blockW blockH
          blockXOff blockYOff block = .ok block2) :
    postProcessBlock enc sectionNum noDataValue cache blockW blockH
      blockXOff blockYOff block2 = .ok block2 := by
  unfold postProcessBlock at h ⊢
  by_cases hs : isSupported enc = true
  · rw [if_pos hs] at h ⊢
    exact postProcessRowsFrom_idem enc noDataValue cache (blockYOff * blockH)
      (blockXOff * blockW : ℕ) blockW (validRange_le sectionNum) 0 block block2 h
  · rw [if_neg hs] at h ⊢

theorem postProcess_idempotent_witness :
    postProcessBlock .GDT_Int16 1 (some (.q (-9999))) [⟨0, 2⟩, ⟨0, 2⟩] 2 2 0 0
        [[.i 30000, .i (-9999)], [.i (-30000), .i 5]]
      = .ok [[.i 18000, .i (-9999)], [.i (-18000), .i 5]]
    ∧ postProcessBlock .GDT_Int16 1 (some (.q (-9999))) [⟨0, 2⟩, ⟨0, 2⟩] 2 2 0 0
        [[.i 18000, .i (-9999)], [.i (-18000), .i 5]]
      = .ok [[.i 18000, .i (-9999)], [.i (-18000), .i 5]] :=
  ⟨by decide,
    postProcess_idempotent .GDT_Int16 1 (some (.q (-9999))) [⟨0, 2⟩, ⟨0, 2⟩] 2 2 0 0
      [[.i 30000, .i (-9999)], [.i (-30000), .i 5]]
      [[.i 18000, .i (-9999)], [.i (-18000), .i 5]] (by decide)⟩

end PredRaster
